import Mathlib

/-!
Verification of the PILCO rollout and policy-optimization core
(src/pilco/models/pilco.py) as a shallow embedding.

States, actions and deltas are row-vector means together with covariance
matrices over the rationals.  The external collaborators of the core
(controller, dynamics model, reward functional) are modelled by structures
holding the functions the core calls, exactly with the shapes the code
expects; the core routines (propagate, predict, optimize,
restart_controller, the PILCO constructor) are translated line by line
from the source.
-/

namespace PILCO

open scoped Matrix

/-- Row vector of shape (1, n), matching the (1, dim) arrays of the code. -/
abbrev RowVec (ι : Type) := Matrix (Fin 1) ι ℚ

/-- Matrix with row index ι and column index κ, entries in ℚ. -/
abbrev Mat (ι κ : Type) := Matrix ι κ ℚ

/-- Gaussian state belief: mean of shape (1, sd) and covariance (sd, sd). -/
abbrev Belief (sd : ℕ) := RowVec (Fin sd) × Mat (Fin sd) (Fin sd)

/-- The controller collaborator.  compute_action maps a state belief to the
action mean (1, cd), the action covariance (cd, cd) and the matrix c_xu of
shape (sd, cd) that the code multiplies with the state covariance when it
assembles the joint input covariance (lines 118 and 121 to 122 of
pilco.py). -/
structure Controller (sd cd : ℕ) where
  compute_action : RowVec (Fin sd) → Mat (Fin sd) (Fin sd) →
    RowVec (Fin cd) × Mat (Fin cd) (Fin cd) × Mat (Fin sd) (Fin cd)

/-- The dynamics model collaborator.  predict_on_noisy_inputs maps the joint
(state, action) input belief to the delta mean (1, sd), the delta
covariance (sd, sd) and the input-output cross covariance of shape
(sd + cd, sd) (line 125 of pilco.py).  The joint index is the sum type
Fin sd ⊕ Fin cd, left summand = state columns, right summand = action
columns, matching the concatenation order of the code. -/
structure MGPRModel (sd cd : ℕ) where
  predict_on_noisy_inputs : RowVec (Fin sd ⊕ Fin cd) →
    Mat (Fin sd ⊕ Fin cd) (Fin sd ⊕ Fin cd) →
    RowVec (Fin sd) × Mat (Fin sd) (Fin sd) × Mat (Fin sd ⊕ Fin cd) (Fin sd)

/-- The reward collaborator.  compute_reward maps a state belief to the
expected reward and the reward variance; the code only uses index [0],
the expected reward (line 111 of pilco.py). -/
structure Reward (sd : ℕ) where
  compute_reward : RowVec (Fin sd) → Mat (Fin sd) (Fin sd) → ℚ × ℚ

variable {sd cd : ℕ}

/-- Lines 120 to 123 of propagate: the joint input belief.
m  = concat [m_x, m_u]          (axis 1)
s1 = concat [s_x, s_x @ c_xu]   (axis 1)
s2 = concat [(s_x @ c_xu)ᵀ, s_u] (axis 1)
s  = concat [s1, s2]            (axis 0). -/
def jointInputBelief (m_x : RowVec (Fin sd)) (s_x : Mat (Fin sd) (Fin sd))
    (m_u : RowVec (Fin cd)) (s_u : Mat (Fin cd) (Fin cd))
    (c_xu : Mat (Fin sd) (Fin cd)) :
    RowVec (Fin sd ⊕ Fin cd) × Mat (Fin sd ⊕ Fin cd) (Fin sd ⊕ Fin cd) :=
  let m := Matrix.fromColumns m_x m_u
  let s1 := Matrix.fromColumns s_x (s_x * c_xu)
  let s2 := Matrix.fromColumns (s_x * c_xu)ᵀ s_u
  let s := Matrix.fromRows s1 s2
  (m, s)

/-- Lines 117 to 132 of pilco.py: one propagation step.  Queries the
controller, assembles the joint input belief, queries the dynamics model,
then
M_x = M_dx + m_x
S_x = S_dx + s_x + s1 @ C_dx + matmul(C_dx, s1, transpose_a, transpose_b)
where the last term is C_dxᵀ * s1ᵀ. -/
def propagate (ctrl : Controller sd cd) (mgpr : MGPRModel sd cd)
    (m_x : RowVec (Fin sd)) (s_x : Mat (Fin sd) (Fin sd)) : Belief sd :=
  let a := ctrl.compute_action m_x s_x
  let j := jointInputBelief m_x s_x a.1 a.2.1 a.2.2
  let p := mgpr.predict_on_noisy_inputs j.1 j.2
  let s1 := Matrix.fromColumns s_x (s_x * a.2.2)
  let M_x := p.1 + m_x
  let S_x := p.2.1 + s_x + s1 * p.2.2 + (p.2.2ᵀ * s1ᵀ)
  (M_x, S_x)

/-- The step function of the rollout: the pair form of propagate. -/
def stepFn (ctrl : Controller sd cd) (mgpr : MGPRModel sd cd) :
    Belief sd → Belief sd :=
  fun b => propagate ctrl mgpr b.1 b.2

/-- The expected-reward scalar the loop accumulates: index [0] of
compute_reward. -/
def rewardOf (rew : Reward sd) (b : Belief sd) : ℚ :=
  (rew.compute_reward b.1 b.2).1

/-- The body of the tf.while_loop of predict (lines 104 to 113), unrolled
as structural recursion on the remaining iteration count.  Each iteration
maps the carried state ((m_x, s_x), reward) to
((propagate m_x s_x), reward + compute_reward(m_x, s_x)[0]),
with compute_reward applied to the belief the iteration started from,
exactly as the body lambda does. -/
def predictLoop (ctrl : Controller sd cd) (mgpr : MGPRModel sd cd)
    (rew : Reward sd) : ℕ → Belief sd × ℚ → Belief sd × ℚ
  | 0, st => st
  | k + 1, st =>
      predictLoop ctrl mgpr rew k
        (stepFn ctrl mgpr st.1, st.2 + rewardOf rew st.1)

/-- Lines 96 to 115 of pilco.py: the rollout.  The loop counter j starts at
0 and the loop runs while j < n, so the body executes n.toNat times (zero
times when n is zero or negative); the reward accumulator starts at the
constant [[0]]. -/
def predict (ctrl : Controller sd cd) (mgpr : MGPRModel sd cd)
    (rew : Reward sd) (m_x : RowVec (Fin sd)) (s_x : Mat (Fin sd) (Fin sd))
    (n : ℤ) : RowVec (Fin sd) × Mat (Fin sd) (Fin sd) × ℚ :=
  let r := predictLoop ctrl mgpr rew n.toNat ((m_x, s_x), 0)
  (r.1.1, r.1.2, r.2)

/-- Closed form of the loop: after k iterations the carried belief is the
k-fold iterate of the step function and the accumulator has gained the
rewards of the beliefs each iteration started from. -/
lemma predictLoop_eq (ctrl : Controller sd cd) (mgpr : MGPRModel sd cd)
    (rew : Reward sd) (k : ℕ) (st : Belief sd × ℚ) :
    predictLoop ctrl mgpr rew k st =
      ((stepFn ctrl mgpr)^[k] st.1,
       st.2 + ∑ i ∈ Finset.range k,
         rewardOf rew ((stepFn ctrl mgpr)^[i] st.1)) := by
  induction k generalizing st with
  | zero => simp [predictLoop]
  | succ k ih =>
    rw [predictLoop, ih]
    rw [Finset.sum_range_succ']
    simp only [Function.iterate_succ_apply, Function.iterate_zero_apply]
    refine congrArg (Prod.mk _) ?_
    ring

section ConcreteInstances

/-- Constant controller used for concrete evaluations: zero action mean,
zero action covariance, zero cross term. -/
def cCtrl : Controller 1 1 := ⟨fun _ _ => (0, 0, 0)⟩

/-- Constant dynamics model used for concrete evaluations: delta mean one,
zero delta covariance, zero input-output cross covariance. -/
def cModel : MGPRModel 1 1 := ⟨fun _ _ => (!![1], 0, 0)⟩

/-- Reward functional used for concrete evaluations: expected reward is
the single entry of the state mean, variance zero. -/
def cReward : Reward 1 := ⟨fun m _ => (m 0 0, 0)⟩

end ConcreteInstances

/-- C8: for every initial belief, the rollout with horizon 0 returns the
initial belief unchanged and cumulative reward 0; the loop body is never
entered. -/
theorem predict_horizon_zero (ctrl : Controller sd cd) (mgpr : MGPRModel sd cd)
    (rew : Reward sd) (m_x : RowVec (Fin sd)) (s_x : Mat (Fin sd) (Fin sd)) :
    predict ctrl mgpr rew m_x s_x 0 = (m_x, s_x, 0) := rfl

/-- The cumulative reward as the claim words it: the Reward Functional is
applied to the post-step beliefs, so iteration i of n contributes the
reward of the belief after step i + 1, and the total is the sum of the
rewards of the beliefs after steps 1..n. -/
def specPostStepRewardSum (ctrl : Controller sd cd) (mgpr : MGPRModel sd cd)
    (rew : Reward sd) (m_x : RowVec (Fin sd)) (s_x : Mat (Fin sd) (Fin sd))
    (n : ℤ) : ℚ :=
  ∑ i ∈ Finset.range n.toNat, rewardOf rew ((stepFn ctrl mgpr)^[i + 1] (m_x, s_x))

/-- C1 counterexample: with the constant dynamics model of delta mean 1,
reward equal to the state mean entry, initial belief (0, 0) and horizon 1,
the code accumulates the reward of the pre-step belief (total 0), not of
the post-step belief (which would give total 1), so the rollout reward is
not the sum of the rewards of the beliefs after steps 1..n. -/
theorem predict_reward_not_post_step_cex :
    (predict cCtrl cModel cReward !![0] 0 1).2.2 ≠
      specPostStepRewardSum cCtrl cModel cReward !![0] 0 1 := by
  have h1 : (predict cCtrl cModel cReward !![0] 0 1).2.2 = 0 := by
    simp [predict, predictLoop, stepFn, propagate, rewardOf, cCtrl, cModel,
      cReward, jointInputBelief]
  have h2 : specPostStepRewardSum cCtrl cModel cReward !![0] 0 1 = 1 := by
    simp [specPostStepRewardSum, stepFn, propagate, rewardOf, cCtrl, cModel,
      cReward, jointInputBelief, Matrix.add_apply]
  rw [h1, h2]
  norm_num

/-- C1 amended: each iteration of the rollout loop applies the Reward
Functional to the belief the iteration started from (the pre-step belief),
so for horizon n the cumulative reward is the sum of the rewards of the
beliefs after steps 0..n-1: the reward of the initial belief is included
and the reward of the final belief is not. -/
theorem predict_reward_pre_step (ctrl : Controller sd cd)
    (mgpr : MGPRModel sd cd) (rew : Reward sd) (m_x : RowVec (Fin sd))
    (s_x : Mat (Fin sd) (Fin sd)) (n : ℤ) :
    predict ctrl mgpr rew m_x s_x n =
      (((stepFn ctrl mgpr)^[n.toNat] (m_x, s_x)).1,
       ((stepFn ctrl mgpr)^[n.toNat] (m_x, s_x)).2,
       ∑ i ∈ Finset.range n.toNat,
         rewardOf rew ((stepFn ctrl mgpr)^[i] (m_x, s_x))) := by
  simp [predict, predictLoop_eq]

/-- C2: propagate returns mean = current state mean + predicted delta mean
and covariance = delta covariance + current state covariance + cross term
+ transpose of the cross term, where the cross term is the first block-row
of the joint input covariance multiplied by the input-output cross
covariance returned by the dynamics model. -/
theorem propagate_mean_cov (ctrl : Controller sd cd) (mgpr : MGPRModel sd cd)
    (m_x : RowVec (Fin sd)) (s_x : Mat (Fin sd) (Fin sd)) :
    propagate ctrl mgpr m_x s_x =
      (let a := ctrl.compute_action m_x s_x
       let j := jointInputBelief m_x s_x a.1 a.2.1 a.2.2
       let p := mgpr.predict_on_noisy_inputs j.1 j.2
       (m_x + p.1,
        p.2.1 + s_x + Matrix.toRows₁ j.2 * p.2.2
          + (Matrix.toRows₁ j.2 * p.2.2)ᵀ)) := by
  simp only [propagate, jointInputBelief, Matrix.toRows₁_fromRows,
    Matrix.transpose_mul, Prod.mk.injEq]
  exact ⟨add_comm _ _, trivial⟩

/-- The Joint Input Belief as the claim words it: the diagonal blocks are
the state and action covariances and the off-diagonal blocks are the cross
covariance returned by compute_action itself and its transpose. -/
def specJointInputBelief (m_x : RowVec (Fin sd)) (s_x : Mat (Fin sd) (Fin sd))
    (m_u : RowVec (Fin cd)) (s_u : Mat (Fin cd) (Fin cd))
    (c_xu : Mat (Fin sd) (Fin cd)) :
    RowVec (Fin sd ⊕ Fin cd) × Mat (Fin sd ⊕ Fin cd) (Fin sd ⊕ Fin cd) :=
  (Matrix.fromColumns m_x m_u, Matrix.fromBlocks s_x c_xu c_xuᵀ s_u)

/-- C3 counterexample: with state covariance [[2]] and compute_action cross
output [[1]], the joint covariance the code builds has off-diagonal entry
s_x * c_xu = 2, while the block matrix the claim describes has entry
c_xu = 1, so the two joint beliefs differ. -/
theorem jointInputBelief_offdiag_cex :
    @jointInputBelief 1 1 !![0] !![2] !![0] !![0] !![1] ≠
      specJointInputBelief !![0] !![2] !![0] !![0] !![1] := by
  intro h
  have h2 := congrArg (fun q => q.2 (Sum.inl 0) (Sum.inr 0)) h
  simp [jointInputBelief, specJointInputBelief, Matrix.mul_apply,
    Matrix.fromBlocks_apply₁₂] at h2

/-- C3 amended: the joint input belief built by propagate has mean the
concatenation of the state and action means, and covariance the 2x2 block
matrix with the state and action covariances on the diagonal and with
s_x * c_xu, the state covariance multiplied by the matrix returned by
compute_action, and its transpose off the diagonal. -/
theorem jointInputBelief_blocks (m_x : RowVec (Fin sd))
    (s_x : Mat (Fin sd) (Fin sd)) (m_u : RowVec (Fin cd))
    (s_u : Mat (Fin cd) (Fin cd)) (c_xu : Mat (Fin sd) (Fin cd)) :
    jointInputBelief m_x s_x m_u s_u c_xu =
      (Matrix.fromColumns m_x m_u,
       Matrix.fromBlocks s_x (s_x * c_xu) (s_x * c_xu)ᵀ s_u) := by
  simp only [jointInputBelief, Matrix.fromRows_fromColumn_eq_fromBlocks]

/-- Symmetry of the shape A + B + X * Y + Yᵀ * Xᵀ for symmetric A and B:
the two cross summands are transposes of each other. -/
lemma addCross_isSymm {ι κ : Type} [Fintype κ] (A B : Mat ι ι)
    (X : Mat ι κ) (Y : Mat κ ι) (hA : A.IsSymm) (hB : B.IsSymm) :
    (A + B + X * Y + Yᵀ * Xᵀ).IsSymm := by
  unfold Matrix.IsSymm at *
  rw [Matrix.transpose_add, Matrix.transpose_add, Matrix.transpose_add,
    Matrix.transpose_mul, Matrix.transpose_mul, Matrix.transpose_transpose,
    Matrix.transpose_transpose, hA, hB]
  abel

/-- The covariance returned by one propagate step is symmetric whenever the
input state covariance and the delta covariances of the dynamics model
are. -/
lemma propagate_snd_isSymm (ctrl : Controller sd cd) (mgpr : MGPRModel sd cd)
    (m_x : RowVec (Fin sd)) (s_x : Mat (Fin sd) (Fin sd)) (hs : s_x.IsSymm)
    (hm : ∀ m s, ((mgpr.predict_on_noisy_inputs m s).2.1).IsSymm) :
    ((propagate ctrl mgpr m_x s_x).2).IsSymm := by
  unfold propagate
  dsimp only
  exact addCross_isSymm _ _ _ _ (hm _ _) hs

/-- C7: when the input state covariance is symmetric and the policy and
dynamics model return symmetric covariance blocks, the covariance produced
by propagate is symmetric, and the covariance of the belief after any
number of rollout steps is symmetric as well. -/
theorem propagate_cov_symm (ctrl : Controller sd cd) (mgpr : MGPRModel sd cd)
    (m_x : RowVec (Fin sd)) (s_x : Mat (Fin sd) (Fin sd)) (hs : s_x.IsSymm)
    (_hc : ∀ m s, ((ctrl.compute_action m s).2.1).IsSymm)
    (hm : ∀ m s, ((mgpr.predict_on_noisy_inputs m s).2.1).IsSymm) (k : ℕ) :
    ((propagate ctrl mgpr m_x s_x).2).IsSymm ∧
      (((stepFn ctrl mgpr)^[k]) (m_x, s_x)).2.IsSymm := by
  have hstep : ∀ b : Belief sd, b.2.IsSymm → ((stepFn ctrl mgpr) b).2.IsSymm :=
    fun b hb => propagate_snd_isSymm ctrl mgpr b.1 b.2 hb hm
  refine ⟨propagate_snd_isSymm ctrl mgpr m_x s_x hs hm, ?_⟩
  induction k with
  | zero => simpa using hs
  | succ k ih =>
    rw [Function.iterate_succ_apply']
    exact hstep _ ih

/-- C7 witness: the symmetry theorem applied to the constant concrete
collaborators at the belief (mean 0, covariance 0) and three steps. -/
theorem propagate_cov_symm_witness :
    ((propagate cCtrl cModel !![0] 0).2).IsSymm ∧
      (((stepFn cCtrl cModel)^[3]) (!![0], 0)).2.IsSymm :=
  propagate_cov_symm cCtrl cModel !![0] 0 (Matrix.transpose_zero)
    (fun _ _ => Matrix.transpose_zero) (fun _ _ => Matrix.transpose_zero) 3

/-- State carried across restart trials: the live parameter values of the
model, the stored read_values snapshot, and the comparison baseline
old_reward. -/
structure RestartState (P : Type) where
  live : P
  values : P
  old_reward : ℚ

/-- One trial of the loop body of restart_controller (lines 137 to 171 of
pilco.py): perturbOptimize covers the strategy application to the
controller sub-models and the optimizer minimize call on the live
parameters; the new return is then computed, and either the snapshot is
restored with old_reward untouched (old_reward > reward) or the new values
become both the live state and the snapshot and old_reward is updated. -/
def restartTrial {P : Type} (compute_return : P → ℚ) (perturbOptimize : P → P)
    (st : RestartState P) : RestartState P :=
  let live1 := perturbOptimize st.live
  let reward := compute_return live1
  if st.old_reward > reward then
    { live := st.values, values := st.values, old_reward := st.old_reward }
  else
    { live := live1, values := live1, old_reward := reward }

/-- Lines 135 to 136 of pilco.py: before the loop, values = read_values()
and old_reward = deepcopy(compute_return()). -/
def initialRestartState {P : Type} (compute_return : P → ℚ) (p0 : P) :
    RestartState P :=
  { live := p0, values := p0, old_reward := compute_return p0 }

/-- Lines 134 to 171 of pilco.py: restart_controller runs one trial per
restart.  The per-trial randomness (the uniform draw and the Gaussian
noise) together with the optimizer run are a per-trial perturb-and-optimize
function, so a run with k restarts is a fold over a list of k such
functions. -/
def restart_controller {P : Type} (compute_return : P → ℚ)
    (trials : List (P → P)) (p0 : P) : RestartState P :=
  trials.foldl (fun st f => restartTrial compute_return f st)
    (initialRestartState compute_return p0)

/-- After any trial the live parameters and the stored snapshot agree:
both branches of the accept and reject decision leave them equal. -/
lemma restartTrial_live_eq_values {P : Type} (R : P → ℚ) (f : P → P)
    (st : RestartState P) :
    (restartTrial R f st).live = (restartTrial R f st).values := by
  unfold restartTrial
  dsimp only
  split <;> rfl

/-- The live-equals-snapshot property is preserved by any sequence of
trials. -/
lemma foldl_restartTrial_live_eq_values {P : Type} (R : P → ℚ)
    (ts : List (P → P)) (st : RestartState P) (h : st.live = st.values) :
    (ts.foldl (fun s f => restartTrial R f s) st).live
      = (ts.foldl (fun s f => restartTrial R f s) st).values := by
  induction ts generalizing st with
  | nil => exact h
  | cons f ts ih =>
    rw [List.foldl_cons]
    exact ih _ (restartTrial_live_eq_values R f st)

/-- C4: in every trial of restart_controller (the trial given by the split
of the trial list into pre ++ f :: post, with st the state reached after
the trials in pre), the trial is rejected exactly when old_reward exceeds
the newly computed reward; a rejected trial restores the live parameters
to the pre-trial values with old_reward unchanged, while an accepted trial
(ties included) keeps the new parameters and stores the new reward. -/
theorem restart_controller_trial_accept_reject {P : Type} (R : P → ℚ)
    (pre post : List (P → P)) (f : P → P) (p0 : P) (st : RestartState P)
    (hst : st = List.foldl (fun s g => restartTrial R g s)
      (initialRestartState R p0) pre) :
    (st.old_reward > R (f st.live) →
      restartTrial R f st = ⟨st.live, st.live, st.old_reward⟩) ∧
    (¬ st.old_reward > R (f st.live) →
      restartTrial R f st = ⟨f st.live, f st.live, R (f st.live)⟩) ∧
    restart_controller R (pre ++ f :: post) p0
      = List.foldl (fun s g => restartTrial R g s) (restartTrial R f st) post := by
  have hlv : st.live = st.values := by
    subst hst
    exact foldl_restartTrial_live_eq_values R pre _ rfl
  refine ⟨?_, ?_, ?_⟩
  · intro h
    unfold restartTrial
    dsimp only
    rw [if_pos h, ← hlv]
  · intro h
    unfold restartTrial
    dsimp only
    rw [if_neg h]
  · subst hst
    simp [restart_controller, List.foldl_append]

/-- C4 witness: the accept and reject dichotomy applied to a concrete run
over the rationals, with the identity return function, zero trials before
the inspected one, parameter 0 and the trial x - 1 (so the trial is
rejected: 0 > -1). -/
theorem restart_controller_trial_accept_reject_witness :
    (((0 : ℚ) > id ((0 : ℚ) - 1) →
      restartTrial id (fun x => x - 1) (⟨0, 0, 0⟩ : RestartState ℚ)
        = ⟨0, 0, 0⟩) ∧
    (¬ (0 : ℚ) > id ((0 : ℚ) - 1) →
      restartTrial id (fun x => x - 1) (⟨0, 0, 0⟩ : RestartState ℚ)
        = ⟨(0 : ℚ) - 1, (0 : ℚ) - 1, id ((0 : ℚ) - 1)⟩) ∧
    restart_controller id ([] ++ (fun x => x - 1) :: []) (0 : ℚ)
      = List.foldl (fun s g => restartTrial id g s)
          (restartTrial id (fun x => x - 1) (⟨0, 0, 0⟩ : RestartState ℚ)) []) :=
  restart_controller_trial_accept_reject id [] [] (fun x => x - 1) 0 ⟨0, 0, 0⟩ rfl

/-- Parameter blocks of the PILCO model: the dynamics model (mgpr) block
and the controller block, the two parameter sets optimize can touch. -/
structure PILCOParams (D P : Type) where
  mgpr_params : D
  controller_params : P

/-- Modelled from the spec: the policy-optimization phase of optimize
(lines 63 to 70 of pilco.py) runs the gpflow ScipyOptimizer on the model;
which parameters that call treats as trainable is decided inside gpflow
and inside mgpr.py and the controller classes, none of which are among the
sources here.  Sections 4.3 and 8 of the spec state that this phase
performs gradient-based minimization with respect to Policy Parameters
while the Dynamics Model parameters, already fitted in the first stage,
are held fixed, so the phase is modelled as a step that may read both
blocks but replaces only the controller block. -/
def policyOptimizationPhase {D P : Type} (minimizeStep : D → P → P)
    (ps : PILCOParams D P) : PILCOParams D P :=
  { mgpr_params := ps.mgpr_params,
    controller_params := minimizeStep ps.mgpr_params ps.controller_params }

/-- Lines 54 to 90 of pilco.py: optimize first fits the dynamics model
(self.mgpr.optimize()), then runs the policy-optimization phase; the
trailing diagnostic printing of the learned hyperparameters reads the
model and mutates nothing. -/
def optimize {D P : Type} (mgprOptimize : D → D) (minimizeStep : D → P → P)
    (ps : PILCOParams D P) : PILCOParams D P :=
  let ps1 : PILCOParams D P :=
    { mgpr_params := mgprOptimize ps.mgpr_params,
      controller_params := ps.controller_params }
  policyOptimizationPhase minimizeStep ps1

/-- C5: the dynamics model parameters after optimize are exactly the ones
produced by the separate model fit, and the policy-optimization phase is a
frame for the mgpr block on any parameter state: it never changes the
dynamics model parameters. -/
theorem optimize_policy_phase_fixes_mgpr {D P : Type} (mgprOptimize : D → D)
    (minimizeStep : D → P → P) (ps : PILCOParams D P) :
    (optimize mgprOptimize minimizeStep ps).mgpr_params
        = mgprOptimize ps.mgpr_params ∧
      ∀ ps2 : PILCOParams D P,
        (policyOptimizationPhase minimizeStep ps2).mgpr_params
          = ps2.mgpr_params :=
  ⟨rfl, fun _ => rfl⟩

/-- The three perturbation strategies of the restart loop, in the order of
the branches at lines 140 to 155 of pilco.py. -/
inductive PerturbStrategy
  | reinit
  | reinitNearInit
  | perturbInPlace
deriving DecidableEq

/-- The mutable data of one controller sub-model that the restart loop
reassigns: the inducing inputs X, the targets Y and the kernel
length-scales.  Entries are collapsed to one rational per field; the
strategies act on every entry of the arrays in the same way. -/
structure ControllerSubModel where
  X : ℚ
  Y : ℚ
  lengthscales : ℚ

/-- The Gaussian draws consumed by the perturbation of one sub-model: one
np.random.normal draw for each of the three assignments. -/
structure SubModelNoise where
  epsX : ℚ
  epsY : ℚ
  epsL : ℚ

/-- The branch taken for one sub-model inside one trial (lines 140 to 155
of pilco.py), as a function of the single uniform draw select of the
trial. -/
def perturbSubModel (select : ℚ) (m_init : ℚ) (m : ControllerSubModel)
    (nz : SubModelNoise) : ControllerSubModel :=
  if select < 33 / 100 then
    { X := 1 / 10 * nz.epsX,
      Y := 1 / 10 * nz.epsY,
      lengthscales := 1 / 10 * nz.epsL + 1 }
  else if select < 67 / 100 then
    { X := 1 / 10 * nz.epsX + m_init,
      Y := 1 / 10 * nz.epsY,
      lengthscales := 1 / 10 * nz.epsL + 1 }
  else
    { X := 1 / 10 * nz.epsX + m.X,
      Y := 1 / 10 * nz.epsY + m.Y,
      lengthscales := 1 / 10 * nz.epsL + m.lengthscales }

/-- Lines 138 to 155 of pilco.py: select = np.random.rand() is drawn once
per trial, before the loop over self.controller.models, and every
sub-model is perturbed with that same draw. -/
def perturbAllSubModels (select : ℚ) (m_init : ℚ)
    (ms : List (ControllerSubModel × SubModelNoise)) :
    List ControllerSubModel :=
  ms.map fun p => perturbSubModel select m_init p.1 p.2

/-- The strategy selected by the draw, in the vocabulary of the claim:
strict comparisons against the fixed thresholds 0.33 and 0.67. -/
def selectStrategy (select : ℚ) : PerturbStrategy :=
  if select < 33 / 100 then PerturbStrategy.reinit
  else if select < 67 / 100 then PerturbStrategy.reinitNearInit
  else PerturbStrategy.perturbInPlace

/-- The effect of one named strategy on one sub-model. -/
def applyStrategy (strat : PerturbStrategy) (m_init : ℚ)
    (m : ControllerSubModel) (nz : SubModelNoise) : ControllerSubModel :=
  match strat with
  | PerturbStrategy.reinit =>
      { X := 1 / 10 * nz.epsX,
        Y := 1 / 10 * nz.epsY,
        lengthscales := 1 / 10 * nz.epsL + 1 }
  | PerturbStrategy.reinitNearInit =>
      { X := 1 / 10 * nz.epsX + m_init,
        Y := 1 / 10 * nz.epsY,
        lengthscales := 1 / 10 * nz.epsL + 1 }
  | PerturbStrategy.perturbInPlace =>
      { X := 1 / 10 * nz.epsX + m.X,
        Y := 1 / 10 * nz.epsY + m.Y,
        lengthscales := 1 / 10 * nz.epsL + m.lengthscales }

/-- The per-sub-model branch is exactly the application of the strategy
selected from the draw. -/
lemma perturbSubModel_eq_applyStrategy (select m_init : ℚ)
    (m : ControllerSubModel) (nz : SubModelNoise) :
    perturbSubModel select m_init m nz
      = applyStrategy (selectStrategy select) m_init m nz := by
  unfold perturbSubModel selectStrategy applyStrategy
  split_ifs <;> rfl

/-- C6: the draw of exactly 0.33 selects strategy B and the draw of
exactly 0.67 selects strategy C; every draw selects exactly one of the
three strategies, determined by strict comparisons against 0.33 and 0.67;
and within one trial the single selected strategy is applied uniformly to
every sub-model of the controller. -/
theorem perturb_strategy_selection (m_init : ℚ) :
    selectStrategy (33 / 100) = PerturbStrategy.reinitNearInit ∧
    selectStrategy (67 / 100) = PerturbStrategy.perturbInPlace ∧
    (∀ select : ℚ,
      (select < 33 / 100 ∧ selectStrategy select = PerturbStrategy.reinit) ∨
      (33 / 100 ≤ select ∧ select < 67 / 100 ∧
        selectStrategy select = PerturbStrategy.reinitNearInit) ∨
      (67 / 100 ≤ select ∧
        selectStrategy select = PerturbStrategy.perturbInPlace)) ∧
    (∀ (select : ℚ) (ms : List (ControllerSubModel × SubModelNoise)),
      perturbAllSubModels select m_init ms
        = ms.map fun p => applyStrategy (selectStrategy select) m_init p.1 p.2) := by
  refine ⟨?_, ?_, ?_, ?_⟩
  · unfold selectStrategy
    norm_num
  · unfold selectStrategy
    norm_num
  · intro select
    rcases lt_or_le select (33 / 100) with h1 | h1
    · exact Or.inl ⟨h1, by unfold selectStrategy; rw [if_pos h1]⟩
    · rcases lt_or_le select (67 / 100) with h2 | h2
      · exact Or.inr (Or.inl ⟨h1, h2, by
          unfold selectStrategy
          rw [if_neg (not_lt.mpr h1), if_pos h2]⟩)
      · exact Or.inr (Or.inr ⟨h2, by
          unfold selectStrategy
          rw [if_neg (not_lt.mpr h1), if_neg (not_lt.mpr h2)]⟩)
  · intro select ms
    unfold perturbAllSubModels
    simp only [perturbSubModel_eq_applyStrategy]

/-- The fields of a constructed PILCO object that the constructor decides:
dimensions, horizon and the initial rollout belief. -/
structure PILCOConfig (sd : ℕ) where
  state_dim : ℕ
  control_dim : ℕ
  horizon : ℤ
  m_init : RowVec (Fin sd)
  S_init : Mat (Fin sd) (Fin sd)

/-- Lines 16 to 46 of pilco.py, the parts of the constructor that fix
dimensions, horizon and the initial belief.  state_dim = Y.shape[1] and
control_dim = X.shape[1] - Y.shape[1] are carried at the type level by
indexing the columns of X with Fin sd ⊕ Fin cd, state columns first; the
row type Fin (nr + 1) records that the dataset is nonempty, which the
slice X[0:1] at line 40 assumes.  When m_init or S_init is missing (is
None) the initial belief defaults to the first row of the state columns of
X together with np.diag(np.ones(state_dim) * 0.1); otherwise the two
arguments are stored unchanged.  The horizon is stored as given: the
constructor contains no validation of it. -/
def init {nr sd cd : ℕ} (X : Matrix (Fin (nr + 1)) (Fin sd ⊕ Fin cd) ℚ)
    (Y : Matrix (Fin (nr + 1)) (Fin sd) ℚ) (horizon : ℤ)
    (m_init? : Option (RowVec (Fin sd)))
    (S_init? : Option (Mat (Fin sd) (Fin sd))) : PILCOConfig sd :=
  let belief : RowVec (Fin sd) × Mat (Fin sd) (Fin sd) :=
    match m_init?, S_init? with
    | some m, some s => (m, s)
    | _, _ => (X.submatrix (fun _ : Fin 1 => 0) Sum.inl,
               Matrix.diagonal fun _ => 1 / 10)
  { state_dim := sd
    control_dim := cd
    horizon := horizon
    m_init := belief.1
    S_init := belief.2 }

/-- The diagonal matrix with constant entry one tenth is one tenth of the
identity. -/
lemma diagonal_tenth_eq_smul_one {sd : ℕ} :
    (Matrix.diagonal fun _ : Fin sd => (1 / 10 : ℚ)) = (1 / 10 : ℚ) • 1 := by
  ext i j
  rcases eq_or_ne i j with rfl | hij
  · simp
  · simp [Matrix.diagonal_apply_ne _ hij, Matrix.one_apply_ne hij]

/-- C10: when m_init or S_init is omitted, the constructor sets the
initial mean to the first row of the state columns of X and the initial
covariance to one tenth of the identity; when both are supplied they are
stored unchanged. -/
theorem init_initial_belief {nr sd cd : ℕ}
    (X : Matrix (Fin (nr + 1)) (Fin sd ⊕ Fin cd) ℚ)
    (Y : Matrix (Fin (nr + 1)) (Fin sd) ℚ) (h : ℤ)
    (m? : Option (RowVec (Fin sd))) (S? : Option (Mat (Fin sd) (Fin sd))) :
    ((m? = none ∨ S? = none) →
      (init X Y h m? S?).m_init = X.submatrix (fun _ => 0) Sum.inl ∧
      (init X Y h m? S?).S_init = (1 / 10 : ℚ) • 1) ∧
    (∀ m S, m? = some m → S? = some S →
      (init X Y h m? S?).m_init = m ∧ (init X Y h m? S?).S_init = S) := by
  constructor
  · intro hnone
    rcases m? with _ | m <;> rcases S? with _ | S
    · exact ⟨rfl, diagonal_tenth_eq_smul_one⟩
    · exact ⟨rfl, diagonal_tenth_eq_smul_one⟩
    · exact ⟨rfl, diagonal_tenth_eq_smul_one⟩
    · rcases hnone with hbad | hbad <;> simp at hbad
  · intro m S hm hS
    subst hm
    subst hS
    exact ⟨rfl, rfl⟩

/-- Concrete training inputs with one row, one state column (value 5) and
one control column (value 7). -/
def X1 : Matrix (Fin 1) (Fin 1 ⊕ Fin 1) ℚ := Matrix.fromColumns !![5] !![7]

/-- Concrete training targets with one row and one state column. -/
def Y1 : Matrix (Fin 1) (Fin 1) ℚ := !![3]

/-- C10 witness: the default-belief branch of the constructor at the
concrete dataset (X1, Y1), horizon 30 and missing m_init and S_init. -/
theorem init_initial_belief_witness :
    (init X1 Y1 30 none none).m_init = X1.submatrix (fun _ => 0) Sum.inl ∧
    (init X1 Y1 30 none none).S_init = (1 / 10 : ℚ) • 1 :=
  (init_initial_belief X1 Y1 30 none none).1 (Or.inl rfl)

/-- C9 counterexample: the constructor does not reject an invalid horizon
at the boundary; called with horizon -1 it returns normally and stores -1,
and the rollout called with that nonpositive horizon is what copes with
it, by running its loop zero times. -/
theorem init_accepts_invalid_horizon_cex :
    (init X1 Y1 (-1) none none).horizon = -1 ∧
    predict cCtrl cModel cReward !![0] 0 (-1) = (!![0], 0, 0) :=
  ⟨rfl, rfl⟩

/-- C9 amended: the constructor stores any horizon unchanged, with no
validation of zero or negative values; a nonpositive horizon reaches
predict, whose while loop then runs zero times and returns the initial
belief with cumulative reward 0. -/
theorem init_no_horizon_validation {nr sd cd : ℕ}
    (X : Matrix (Fin (nr + 1)) (Fin sd ⊕ Fin cd) ℚ)
    (Y : Matrix (Fin (nr + 1)) (Fin sd) ℚ) (h : ℤ)
    (m? : Option (RowVec (Fin sd))) (S? : Option (Mat (Fin sd) (Fin sd))) :
    (init X Y h m? S?).horizon = h ∧
    (∀ n : ℤ, n ≤ 0 → ∀ (ctrl : Controller sd cd) (mgpr : MGPRModel sd cd)
      (rew : Reward sd) (m_x : RowVec (Fin sd)) (s_x : Mat (Fin sd) (Fin sd)),
      predict ctrl mgpr rew m_x s_x n = (m_x, s_x, 0)) := by
  refine ⟨rfl, fun n hn ctrl mgpr rew m_x s_x => ?_⟩
  simp [predict, Int.toNat_of_nonpos hn, predictLoop]

/-- C9 amended witness: the stored horizon and the zero-iteration rollout
at the concrete dataset, horizon 0 stored, and rollout horizon -2. -/
theorem init_no_horizon_validation_witness :
    (init X1 Y1 0 none none).horizon = 0 ∧
    predict cCtrl cModel cReward !![0] 0 (-2) = (!![0], 0, 0) :=
  ⟨(init_no_horizon_validation X1 Y1 0 none none).1,
   (init_no_horizon_validation X1 Y1 0 none none).2 (-2) (by norm_num)
     cCtrl cModel cReward !![0] 0⟩

end PILCO
